import Mathlib

/-!
Shallow embedding of the Monte-Carlo Heston simulation notebook: the
square-root diffusion simulator `SRD_generate_paths`, the variance-reduction
random number generator `random_number_generator`, the asset path simulator
`H93_generate_paths`, the correlation factorization `cho_matrix`
(`np.linalg.cholesky` of `[[1, rho], [rho, 1]]`), and the estimator
(`V0_MCS`, `SE`, `rel_error`).

Arrays of shape `(2, M+1, I)` are modelled as functions `ℕ → ℕ → ℕ → ℝ`
carried together with their explicit dimensions; path matrices of shape
`(M+1, I)` as functions `ℕ → ℕ → ℝ`; machine floats as real numbers.
Fallible operations (the `sys.exit` branches of the simulators, the
factorization failure of `np.linalg.cholesky`) return `Option`.
-/

open Finset

/-- Sum of the first `n` entries of a path-indexed vector (`np.sum` over a
length-`n` array). -/
noncomputable def vecSum (n : ℕ) (f : ℕ → ℝ) : ℝ := ∑ i ∈ range n, f i

/-- Arithmetic mean of the first `n` entries (`np.mean`). -/
noncomputable def vecMean (n : ℕ) (f : ℕ → ℝ) : ℝ := vecSum n f / n

/-- Population variance of the first `n` entries (`np.std(..) ** 2`, numpy
default `ddof = 0`). -/
noncomputable def vecVar (n : ℕ) (f : ℕ → ℝ) : ℝ :=
vecSum n (fun i => (f i - vecMean n f) ^ 2) / n

/-- Population standard deviation of the first `n` entries (`np.std`). -/
noncomputable def vecStd (n : ℕ) (f : ℕ → ℝ) : ℝ := Real.sqrt (vecVar n f)

/-- A `(2, M+1, I)` variate block, as produced by
`np.random.standard_normal((2, M + 1, I))`: entry `b s t i` is the draw for
source `s`, time step `t`, path `i`. -/
def VariateBlock : Type := ℕ → ℕ → ℕ → ℝ

/-- Total number of entries of a `(2, M+1, I)` block. -/
def blockCount (M I : ℕ) : ℕ := 2 * (M + 1) * I

/-- Sum of all entries of a `(2, M+1, I)` block. -/
noncomputable def blockSum (M I : ℕ) (b : VariateBlock) : ℝ :=
∑ s ∈ range 2, ∑ t ∈ range (M + 1), ∑ i ∈ range I, b s t i

/-- Empirical mean of the whole block (`np.mean(rand)`). -/
noncomputable def blockMean (M I : ℕ) (b : VariateBlock) : ℝ :=
blockSum M I b / (blockCount M I : ℝ)

/-- Empirical population variance of the whole block (`np.std(rand) ** 2`). -/
noncomputable def blockVar (M I : ℕ) (b : VariateBlock) : ℝ :=
blockSum M I (fun s t i => (b s t i - blockMean M I b) ^ 2) / (blockCount M I : ℝ)

/-- Empirical population standard deviation of the whole block
(`np.std(rand)`). -/
noncomputable def blockStd (M I : ℕ) (b : VariateBlock) : ℝ :=
Real.sqrt (blockVar M I b)

/-- The concatenation `np.concatenate((rand, -rand), 2)` applied to a half-block of shape
`(2, M+1, I/2)`: paths `0 ≤ i < I/2` hold the draws `d`, paths `I/2 ≤ i`
hold their negatives.  (`I / 2` is Python-2 integer floor division.) -/
noncomputable def antitheticConcat (I : ℕ) (d : VariateBlock) : VariateBlock :=
fun s t i => if i < I / 2 then d s t i else -d s t (i - I / 2)

/-- Number of paths actually present in the generated block: `I/2` draws
doubled by the antithetic concatenation when `antipath` is set, or `I` draws
directly otherwise. -/
def rngPathCount (antipath : Bool) (I : ℕ) : ℕ :=
if antipath then 2 * (I / 2) else I

/-- Shape of the array returned by `random_number_generator`. -/
def rng_shape (antipath : Bool) (M I : ℕ) : ℕ × ℕ × ℕ :=
(2, M + 1, rngPathCount antipath I)

/-- The block before moment matching: antithetic concatenation of the
half-size draws, or the raw draws. -/
noncomputable def rng_base (antipath : Bool) (I : ℕ) (draws : VariateBlock) :
    VariateBlock :=
if antipath then antitheticConcat I draws else draws

/-- The global moment-matching correction: `rand = rand / np.std(rand)`
followed by `rand = rand - np.mean(rand)` — one transformation of the whole
`(2, M+1, I)` block, where `I` is the block's actual path dimension. -/
noncomputable def momentMatchBlock (M I : ℕ) (b : VariateBlock) : VariateBlock :=
fun s t i =>
  b s t i / blockStd M I b -
    blockMean M I (fun u v w => b u v w / blockStd M I b)

/-- The function `random_number_generator(M, I)` with the module-level flags `antipath`
and `momatch` made explicit parameters, applied to the underlying
standard-normal draws `draws` (the value of `np.random.standard_normal`). -/
noncomputable def random_number_generator (antipath momatch : Bool) (M I : ℕ)
    (draws : VariateBlock) : VariateBlock :=
if momatch then
  momentMatchBlock M (rngPathCount antipath I) (rng_base antipath I draws)
else rng_base antipath I draws

/-- A concrete draw block used to instantiate generator theorems on a
specific input. -/
noncomputable def sampleDraws : VariateBlock :=
fun _ _ i => if i = 0 then 1 else -2

/-- Scheme tag of the source's first branch. -/
def tagFullTruncation : String := "Full Truncation"

/-- Scheme tag of the source's second branch. -/
def tagPartialTruncation : String := "Partial Truncation"

/-- Scheme tag of the source's third branch. -/
def tagTruncation : String := "Truncation"

/-- Scheme tag of the source's fourth branch. -/
def tagReflection : String := "Reflection"

/-- Scheme tag of the source's fifth branch. -/
def tagHighamMao : String := "Higham-Mao"

/-- Scheme tag of the source's sixth branch. -/
def tagSimpleReflection : String := "Simple Reflection"

/-- Scheme tag of the source's seventh branch. -/
def tagAbsorption : String := "Absorption"

/-- An unrecognized scheme tag, used to exercise the failure branch. -/
def tagMidpoint : String := "Midpoint"

/-- The seven variance scheme tags recognized by `SRD_generate_paths`, in
source order. -/
def srdSchemes : List String :=
[tagFullTruncation, tagPartialTruncation, tagTruncation, tagReflection,
 tagHighamMao, tagSimpleReflection, tagAbsorption]

/-- Row `row` of `ran = np.dot(cho_matrix, rand[:, t])`: the correlated
shock for time step `t` and path `i` (the matrix product of the 2×2 Cholesky
factor with the two driving sources). -/
noncomputable def dot2 (cho : ℕ → ℕ → ℝ) (row : ℕ) (rand : VariateBlock)
    (t i : ℕ) : ℝ :=
cho row 0 * rand 0 t i + cho row 1 * rand 1 t i

/-- One iteration of the variance loop for one path: from
`p = (xh[t-1], x[t-1])` and the correlated shock `z` to `(xh[t], x[t])`,
following the source's `if` chain branch by branch.  The `Truncation` and
`Simple Reflection` branches never write `xh[t]`, which therefore keeps its
`np.zeros_like` value 0; the final catch-all is unreachable through
`SRD_generate_paths`, which returns `none` for unrecognized tags before
exposing any values. -/
noncomputable def SRD_step (x_disc : String) (kappa theta sigma dt sdt : ℝ)
    (p : ℝ × ℝ) (z : ℝ) : ℝ × ℝ :=
if x_disc = tagFullTruncation then
  let xh := p.1 + kappa * (theta - max 0 p.1) * dt +
    Real.sqrt (max 0 p.1) * sigma * z * sdt
  (xh, max 0 xh)
else if x_disc = tagPartialTruncation then
  let xh := p.1 + kappa * (theta - p.1) * dt +
    Real.sqrt (max 0 p.1) * sigma * z * sdt
  (xh, max 0 xh)
else if x_disc = tagTruncation then
  (0, max 0 (p.2 + kappa * (theta - p.2) * dt + Real.sqrt p.2 * sigma * z * sdt))
else if x_disc = tagReflection then
  let xh := p.1 + kappa * (theta - |p.1|) * dt +
    Real.sqrt |p.1| * sigma * z * sdt
  (xh, |xh|)
else if x_disc = tagHighamMao then
  let xh := p.1 + kappa * (theta - p.1) * dt + Real.sqrt |p.1| * sigma * z * sdt
  (xh, |xh|)
else if x_disc = tagSimpleReflection then
  (0, |p.2 + kappa * (theta - p.2) * dt + Real.sqrt p.2 * sigma * z * sdt|)
else if x_disc = tagAbsorption then
  let xh := max 0 p.1 + kappa * (theta - max 0 p.1) * dt +
    Real.sqrt (max 0 p.1) * sigma * z * sdt
  (xh, max 0 xh)
else (0, 0)

/-- The per-path pair `(xh[t], x[t])` of auxiliary and observable variance
values after `t` loop iterations, from initial value `x0` (both arrays start
at `x0`) and per-step shocks `z`. -/
noncomputable def SRD_pair (x_disc : String) (x0 kappa theta sigma dt sdt : ℝ)
    (z : ℕ → ℝ) : ℕ → ℝ × ℝ
  | 0 => (x0, x0)
  | t + 1 => SRD_step x_disc kappa theta sigma dt sdt
      (SRD_pair x_disc x0 kappa theta sigma dt sdt z t) (z (t + 1))

/-- The observable variance path matrix `x`: entry `(t, i)`, with
`dt = T / M`, `sdt = sqrt(dt)`, and the shock from row `row` of the
correlated draw. -/
noncomputable def SRD_x (x_disc : String) (x0 kappa theta sigma T : ℝ)
    (M I : ℕ) (rand : VariateBlock) (row : ℕ) (cho : ℕ → ℕ → ℝ) :
    ℕ → ℕ → ℝ :=
fun t i =>
  (SRD_pair x_disc x0 kappa theta sigma (T / M) (Real.sqrt (T / M))
    (fun u => dot2 cho row rand u i) t).2

/-- The function `SRD_generate_paths(x_disc, x0, kappa, theta, sigma, T, M,
I, rand, row, cho_matrix)`: the simulated variance paths, or failure (the source prints
and calls `sys.exit`) when the scheme tag is not recognized. -/
noncomputable def SRD_generate_paths (x_disc : String)
    (x0 kappa theta sigma T : ℝ) (M I : ℕ) (rand : VariateBlock) (row : ℕ)
    (cho : ℕ → ℕ → ℝ) : Option (ℕ → ℕ → ℝ) :=
if x_disc ∈ srdSchemes then
  some (SRD_x x_disc x0 kappa theta sigma T M I rand row cho)
else none

/-- Events of one run of the `SRD_generate_paths` time loop, in execution
order: computing the correlated shock `np.dot(cho_matrix, rand[:, t])` for a
step, writing the variance row for a step, or terminating by `sys.exit`
from the unrecognized-scheme `else` branch. -/
inductive SRDEvent : Type
  | shock : ℕ → SRDEvent
  | write : ℕ → SRDEvent
  | bail : SRDEvent
deriving DecidableEq

/-- Trace of the loop body from step `t` with `n` iterations remaining: each
iteration first computes the shock, then either writes row `t` and
continues, or — for an unrecognized tag — terminates at once. -/
def SRD_traceFrom (x_disc : String) : ℕ → ℕ → List SRDEvent
  | _, 0 => []
  | t, n + 1 =>
    SRDEvent.shock t ::
      (if x_disc ∈ srdSchemes then
        SRDEvent.write t :: SRD_traceFrom x_disc (t + 1) n
       else [SRDEvent.bail])

/-- Execution trace of the `for t in xrange(1, M + 1)` loop of
`SRD_generate_paths`. -/
def SRD_trace (x_disc : String) (M : ℕ) : List SRDEvent :=
SRD_traceFrom x_disc 1 M

/-- A zero draw block, used to instantiate simulator theorems. -/
noncomputable def zeroBlock : VariateBlock := fun _ _ _ => 0

/-- The 2×2 identity, used as a trivial Cholesky factor when instantiating
simulator theorems. -/
noncomputable def idCho : ℕ → ℕ → ℝ := fun r c => if r = c then 1 else 0

/-- Asset scheme tag of the exact-log Euler discretization. -/
def tagLog : String := "Log"

/-- Asset scheme tag of the simple Euler discretization. -/
def tagNaive : String := "Naive"

/-- Per-step drift bias of the asset process: the source initializes
`bias = 0.0` and, only when `momatch` is set, recomputes it at each step `t`
as `np.mean(np.sqrt(v[t]) * ran[row] * sdt)` — the cross-path mean over the
`I` paths. -/
noncomputable def H93_bias (momatch : Bool) (I : ℕ) (v sh : ℕ → ℕ → ℝ)
    (sdt : ℝ) (t : ℕ) : ℝ :=
if momatch then vecMean I (fun i => Real.sqrt (v t i) * sh t i * sdt) else 0

/-- Asset path values: entry `(t, i)` of the matrix `S`, with `sh t i` the
correlated shock `ran[row]` for step `t` and path `i`, following the
source's branch on `s_disc`.  The catch-all is unreachable through
`H93_generate_paths`, which returns `none` for unrecognized tags before
exposing any values. -/
noncomputable def H93_S (s_disc : String) (S0 r dt sdt : ℝ) (momatch : Bool)
    (I : ℕ) (v sh : ℕ → ℕ → ℝ) : ℕ → ℕ → ℝ
  | 0, _ => S0
  | t + 1, i =>
    if s_disc = tagLog then
      H93_S s_disc S0 r dt sdt momatch I v sh t i *
        Real.exp ((r - 0.5 * v (t + 1) i) * dt +
          Real.sqrt (v (t + 1) i) * sh (t + 1) i * sdt -
          H93_bias momatch I v sh sdt (t + 1))
    else if s_disc = tagNaive then
      H93_S s_disc S0 r dt sdt momatch I v sh t i *
        (Real.exp (r * dt) + Real.sqrt (v (t + 1) i) * sh (t + 1) i * sdt -
          H93_bias momatch I v sh sdt (t + 1))
    else 0

/-- The function `H93_generate_paths(S0, r, v, row, cho_matrix)` with the
`s_disc`, `momatch`, `M`, `I`, `dt` and `rand` made explicit parameters;
fails (the source prints and exits) for unrecognized asset scheme tags. -/
noncomputable def H93_generate_paths (s_disc : String) (S0 r : ℝ)
    (v : ℕ → ℕ → ℝ) (row : ℕ) (cho : ℕ → ℕ → ℝ) (rand : VariateBlock)
    (momatch : Bool) (M I : ℕ) (dt : ℝ) : Option (ℕ → ℕ → ℝ) :=
if s_disc = tagLog ∨ s_disc = tagNaive then
  some (H93_S s_disc S0 r dt (Real.sqrt dt) momatch I v (dot2 cho row rand))
else none

/-- The 2×2 correlation matrix `[[1, rho], [rho, 1]]` built by the driver
cell. -/
noncomputable def covariance_matrix (rho : ℝ) : Fin 2 → Fin 2 → ℝ :=
fun r c => if r = c then 1 else rho

/-- The lower-triangular Cholesky factor of `[[1, rho], [rho, 1]]`:
`[[1, 0], [rho, sqrt(1 - rho^2)]]`. -/
noncomputable def choFactor (rho : ℝ) : Fin 2 → Fin 2 → ℝ :=
fun r c =>
  if r = 0 ∧ c = 0 then 1
  else if r = 1 ∧ c = 0 then rho
  else if r = 1 ∧ c = 1 then Real.sqrt (1 - rho ^ 2)
  else 0

/-- The factor `cho_matrix = np.linalg.cholesky(covariance_matrix)`.  Here
`np.linalg.cholesky`
wraps LAPACK `dpotrf`, which succeeds only when every pivot is strictly
positive and raises `LinAlgError` otherwise; for `[[1, rho], [rho, 1]]` the
pivots are `1` and `1 - rho^2`, so the factorization succeeds exactly when
`1 - rho^2 > 0`. -/
noncomputable def cho_matrix (rho : ℝ) : Option (Fin 2 → Fin 2 → ℝ) :=
if 0 < 1 - rho ^ 2 then some (choFactor rho) else none

/-- The product `L * L^T` for a 2×2 matrix `L`. -/
noncomputable def matMulT (L : Fin 2 → Fin 2 → ℝ) : Fin 2 → Fin 2 → ℝ :=
fun r c => L r 0 * L c 0 + L r 1 * L c 1

/-- Discount factor `B0T = math.exp(-r * T)`. -/
noncomputable def B0T (r T : ℝ) : ℝ := Real.exp (-r * T)

/-- Inner value matrix `h = np.maximum(S - K, 0)`. -/
noncomputable def inner_value (K : ℝ) (S : ℕ → ℕ → ℝ) : ℕ → ℕ → ℝ :=
fun t i => max (S t i - K) 0

/-- Present value vector `pv = B0T * h[-1]`: the discounted inner values of
the terminal row `M`. -/
noncomputable def pv (r T K : ℝ) (M : ℕ) (S : ℕ → ℕ → ℝ) : ℕ → ℝ :=
fun i => B0T r T * inner_value K S M i

/-- MCS estimator `V0_MCS = np.sum(pv) / I`. -/
noncomputable def V0_MCS (r T K : ℝ) (M I : ℕ) (S : ℕ → ℕ → ℝ) : ℝ :=
vecSum I (pv r T K M S) / I

/-- Standard error `SE = np.std(pv) / math.sqrt(I)`. -/
noncomputable def SE (r T K : ℝ) (M I : ℕ) (S : ℕ → ℕ → ℝ) : ℝ :=
vecStd I (pv r T K M S) / Real.sqrt I

/-- Relative error `rel_error = (V0_MCS - C0) / C0` against the benchmark
price `C0`. -/
noncomputable def rel_error (r T K : ℝ) (M I : ℕ) (S : ℕ → ℕ → ℝ)
    (C0 : ℝ) : ℝ :=
(V0_MCS r T K M I S - C0) / C0

/-- A zero path matrix, used to instantiate estimator theorems. -/
noncomputable def zeroMatrix : ℕ → ℕ → ℝ := fun _ _ => 0

/-- C4: with antithetic pairing enabled and moment matching disabled, every
drawn index `i < I/2` has its exact negative at path `i + I/2` of the same
(source, time) coordinate of the block returned by
`random_number_generator`. -/
theorem claim_C4_antithetic_pairing (draws : VariateBlock) (M I s t i : ℕ)
    (hs : s < 2) (ht : t ≤ M) (hi : i < I / 2) :
    random_number_generator true false M I draws s t (i + I / 2) =
      -random_number_generator true false M I draws s t i := by
  have h1 : ¬ i + I / 2 < I / 2 := by omega
  simp [random_number_generator, rng_base, antitheticConcat, h1, hi]

/-- Witness for C4 at `M = 0`, `I = 2`, coordinate `(0, 0, 0)`. -/
theorem claim_C4_witness :
    random_number_generator true false 0 2 sampleDraws 0 0 1 =
      -random_number_generator true false 0 2 sampleDraws 0 0 0 :=
  claim_C4_antithetic_pairing sampleDraws 0 2 0 0 0 (by norm_num) le_rfl
    (by norm_num)

/-- C9: with antithetic pairing enabled and an odd requested path count `I`,
the generated block has only `2 * (I / 2) = I - 1` paths, which disagrees
with the `(M+1, I)` path matrices allocated by the simulators. -/
theorem claim_C9_odd_path_count (M I : ℕ) (hI : Odd I) :
    rng_shape true M I = (2, M + 1, I - 1) ∧ rngPathCount true I ≠ I := by
  obtain ⟨k, hk⟩ := hI
  subst hk
  refine ⟨?_, ?_⟩
  · simp only [rng_shape, rngPathCount, if_pos]
    refine congrArg (Prod.mk 2) (congrArg (Prod.mk (M + 1)) ?_)
    omega
  · simp only [rngPathCount, if_pos]
    omega

/-- Witness for C9 at `M = 0`, `I = 5`: the block gets 4 paths, not 5. -/
theorem claim_C9_witness :
    rng_shape true 0 5 = (2, 1, 4) ∧ rngPathCount true 5 ≠ 5 :=
  claim_C9_odd_path_count 0 5 (by decide)

/-- Summing a block divided entrywise by a constant. -/
lemma blockSum_div (M I : ℕ) (b : VariateBlock) (c : ℝ) :
    blockSum M I (fun s t i => b s t i / c) = blockSum M I b / c := by
  simp [blockSum, Finset.sum_div]

/-- Summing a block shifted entrywise by a constant. -/
lemma blockSum_sub_const (M I : ℕ) (b : VariateBlock) (c : ℝ) :
    blockSum M I (fun s t i => b s t i - c) =
      blockSum M I b - (blockCount M I : ℝ) * c := by
  simp only [blockSum, blockCount, Finset.sum_sub_distrib, Finset.sum_const,
    Finset.card_range, nsmul_eq_mul]
  push_cast
  ring

/-- The block mean after entrywise division by a constant. -/
lemma blockMean_div (M I : ℕ) (b : VariateBlock) (c : ℝ) :
    blockMean M I (fun s t i => b s t i / c) = blockMean M I b / c := by
  rw [blockMean, blockSum_div, div_right_comm, blockMean]

/-- The block mean after entrywise subtraction of a constant. -/
lemma blockMean_sub_const (M I : ℕ) (b : VariateBlock) (c : ℝ)
    (h : (blockCount M I : ℝ) ≠ 0) :
    blockMean M I (fun s t i => b s t i - c) = blockMean M I b - c := by
  rw [blockMean, blockSum_sub_const, sub_div, mul_comm, mul_div_assoc,
    div_self h, mul_one, blockMean]

/-- The block variance is invariant under entrywise subtraction of a
constant. -/
lemma blockVar_sub_const (M I : ℕ) (b : VariateBlock) (c : ℝ)
    (h : (blockCount M I : ℝ) ≠ 0) :
    blockVar M I (fun s t i => b s t i - c) = blockVar M I b := by
  unfold blockVar
  rw [blockMean_sub_const M I b c h]
  congr 1
  unfold blockSum
  refine Finset.sum_congr rfl fun s _ => Finset.sum_congr rfl fun t _ =>
    Finset.sum_congr rfl fun i _ => ?_
  ring

/-- The block variance after entrywise division by a constant. -/
lemma blockVar_div (M I : ℕ) (b : VariateBlock) (c : ℝ) :
    blockVar M I (fun s t i => b s t i / c) = blockVar M I b / c ^ 2 := by
  unfold blockVar
  rw [blockMean_div M I b c]
  have h1 : blockSum M I (fun s t i => (b s t i / c - blockMean M I b / c) ^ 2) =
      blockSum M I (fun s t i => (b s t i - blockMean M I b) ^ 2 / c ^ 2) := by
    unfold blockSum
    refine Finset.sum_congr rfl fun s _ => Finset.sum_congr rfl fun t _ =>
      Finset.sum_congr rfl fun i _ => ?_
    simp only [div_sub_div_same, div_pow]
  rw [h1, blockSum_div M I (fun s t i => (b s t i - blockMean M I b) ^ 2) (c ^ 2),
    div_right_comm]

/-- Block variances are nonnegative. -/
lemma blockVar_nonneg (M I : ℕ) (b : VariateBlock) : 0 ≤ blockVar M I b := by
  unfold blockVar blockSum
  positivity

/-- Moment matching yields empirical mean exactly 0 and standard deviation
exactly 1 whenever the uncorrected block has nonzero dispersion: dividing by
the block standard deviation scales the variance to 1, and subtracting the
resulting mean recenters without changing the variance. -/
lemma momentMatchBlock_moments (M I : ℕ) (b : VariateBlock)
    (hc : (blockCount M I : ℝ) ≠ 0) (hs : 0 < blockStd M I b) :
    blockMean M I (momentMatchBlock M I b) = 0 ∧
      blockStd M I (momentMatchBlock M I b) = 1 := by
  have hv : 0 < blockVar M I b := Real.sqrt_pos.mp (by simpa [blockStd] using hs)
  have hmean : blockMean M I (momentMatchBlock M I b) = 0 := by
    unfold momentMatchBlock
    rw [blockMean_sub_const M I (fun u v w => b u v w / blockStd M I b) _ hc]
    exact sub_self _
  refine ⟨hmean, ?_⟩
  have hvar : blockVar M I (momentMatchBlock M I b) = 1 := by
    unfold momentMatchBlock
    rw [blockVar_sub_const M I (fun u v w => b u v w / blockStd M I b) _ hc,
      blockVar_div M I b (blockStd M I b), blockStd, Real.sq_sqrt hv.le]
    exact div_self (ne_of_gt hv)
  rw [blockStd, hvar, Real.sqrt_one]

/-- C5: with moment matching enabled, the block returned by
`random_number_generator` has empirical mean exactly 0 and empirical
standard deviation exactly 1 over the entire block (real arithmetic), the
correction being the single global transformation divide-by-std followed by
recenter-by-mean. -/
theorem claim_C5_moment_matching (antipath : Bool) (M I : ℕ)
    (draws : VariateBlock)
    (hc : (blockCount M (rngPathCount antipath I) : ℝ) ≠ 0)
    (hs : 0 < blockStd M (rngPathCount antipath I) (rng_base antipath I draws)) :
    blockMean M (rngPathCount antipath I)
        (random_number_generator antipath true M I draws) = 0 ∧
      blockStd M (rngPathCount antipath I)
        (random_number_generator antipath true M I draws) = 1 := by
  have h := momentMatchBlock_moments M (rngPathCount antipath I)
    (rng_base antipath I draws) hc hs
  simpa [random_number_generator] using h

/-- Witness for C5: `antipath = false`, `M = 0`, `I = 2`, draws `1, -2`. -/
theorem claim_C5_witness :
    blockMean 0 (rngPathCount false 2)
        (random_number_generator false true 0 2 sampleDraws) = 0 ∧
      blockStd 0 (rngPathCount false 2)
        (random_number_generator false true 0 2 sampleDraws) = 1 :=
  claim_C5_moment_matching false 0 2 sampleDraws
    (by norm_num [blockCount, rngPathCount])
    (by
      have hvar : blockVar 0 (rngPathCount false 2) (rng_base false 2 sampleDraws) =
          9 / 4 := by
        norm_num [blockVar, blockMean, blockSum, blockCount, rngPathCount,
          rng_base, sampleDraws, Finset.sum_range_succ]
      rw [blockStd, hvar]
      positivity)

/-- Each (source, time) row of the antithetic concatenation sums to zero over
its `2 * (I / 2)` paths: each drawn value cancels with its mirrored
negative. -/
lemma antitheticConcat_row_sum (I : ℕ) (d : VariateBlock) (s t : ℕ) :
    ∑ i ∈ range (2 * (I / 2)), antitheticConcat I d s t i = 0 := by
  rw [two_mul, Finset.sum_range_add]
  have h1 : ∀ i ∈ range (I / 2), antitheticConcat I d s t i = d s t i := by
    intro i hi
    rw [Finset.mem_range] at hi
    simp [antitheticConcat, hi]
  have h3 : ∀ i ∈ range (I / 2),
      antitheticConcat I d s t (I / 2 + i) = -d s t i := by
    intro i hi
    rw [Finset.mem_range] at hi
    have h4 : ¬ I / 2 + i < I / 2 := by omega
    simp [antitheticConcat, h4]
  rw [Finset.sum_congr rfl h1, Finset.sum_congr rfl h3, Finset.sum_neg_distrib]
  ring

/-- The whole antithetic block sums to zero. -/
lemma antitheticConcat_blockSum (M I : ℕ) (d : VariateBlock) :
    blockSum M (rngPathCount true I) (antitheticConcat I d) = 0 := by
  simp [blockSum, rngPathCount, antitheticConcat_row_sum]

/-- C10: with antithetic pairing and moment matching both enabled (even `I`),
the concatenated block has empirical mean exactly zero, and the
moment-matching correction preserves the pairing: paths `i` and `i + I/2` of
the generator's output are still exact negatives at every (source, time)
coordinate. -/
theorem claim_C10_pairing_preserved (M I : ℕ) (draws : VariateBlock)
    (hI : Even I) :
    blockMean M (rngPathCount true I) (antitheticConcat I draws) = 0 ∧
      ∀ s t i, i < I / 2 →
        random_number_generator true true M I draws s t (i + I / 2) =
          -random_number_generator true true M I draws s t i := by
  have hmean : blockMean M (rngPathCount true I) (antitheticConcat I draws) = 0 := by
    rw [blockMean, antitheticConcat_blockSum, zero_div]
  refine ⟨hmean, fun s t i hi => ?_⟩
  have hm2 : blockMean M (rngPathCount true I)
      (fun u v w => antitheticConcat I draws u v w /
        blockStd M (rngPathCount true I) (antitheticConcat I draws)) = 0 := by
    rw [blockMean_div, hmean, zero_div]
  have hgen : random_number_generator true true M I draws =
      momentMatchBlock M (rngPathCount true I) (antitheticConcat I draws) := by
    simp [random_number_generator, rng_base]
  have hpair : antitheticConcat I draws s t (i + I / 2) =
      -antitheticConcat I draws s t i := by
    have h1 : ¬ i + I / 2 < I / 2 := by omega
    simp [antitheticConcat, h1, hi]
  rw [hgen]
  simp only [momentMatchBlock]
  rw [hm2, hpair]
  ring

/-- Witness for C10 at `M = 0`, `I = 2`, coordinate `(0, 0, 0)`. -/
theorem claim_C10_witness :
    blockMean 0 (rngPathCount true 2) (antitheticConcat 2 sampleDraws) = 0 ∧
      random_number_generator true true 0 2 sampleDraws 0 0 1 =
        -random_number_generator true true 0 2 sampleDraws 0 0 0 :=
  ⟨(claim_C10_pairing_preserved 0 2 sampleDraws (by decide)).1,
   (claim_C10_pairing_preserved 0 2 sampleDraws (by decide)).2 0 0 0
     (by norm_num)⟩

/-- For every recognized scheme the observable component produced by one
loop iteration is nonnegative: each branch ends in `np.maximum(0, ·)` or
`abs`. -/
lemma SRD_step_snd_nonneg (x_disc : String) (hd : x_disc ∈ srdSchemes)
    (kappa theta sigma dt sdt : ℝ) (p : ℝ × ℝ) (z : ℝ) :
    0 ≤ (SRD_step x_disc kappa theta sigma dt sdt p z).2 := by
  simp only [srdSchemes, List.mem_cons, List.not_mem_nil, or_false] at hd
  rcases hd with h | h | h | h | h | h | h <;> subst h <;>
    simp [SRD_step, tagFullTruncation, tagPartialTruncation, tagTruncation,
      tagReflection, tagHighamMao, tagSimpleReflection, tagAbsorption,
      le_max_left, abs_nonneg]

/-- C1: for every recognized scheme tag and nonnegative initial value `x0`,
`SRD_generate_paths` succeeds and every entry of the observable variance
path matrix it returns is nonnegative. -/
theorem claim_C1_variance_nonneg (x_disc : String) (x0 kappa theta sigma T : ℝ)
    (M I : ℕ) (rand : VariateBlock) (row : ℕ) (cho : ℕ → ℕ → ℝ)
    (hd : x_disc ∈ srdSchemes) (hx0 : 0 ≤ x0) (t i : ℕ) (ht : t ≤ M)
    (hi : i < I) :
    SRD_generate_paths x_disc x0 kappa theta sigma T M I rand row cho =
        some (SRD_x x_disc x0 kappa theta sigma T M I rand row cho) ∧
      0 ≤ SRD_x x_disc x0 kappa theta sigma T M I rand row cho t i := by
  refine ⟨by simp [SRD_generate_paths, hd], ?_⟩
  cases t with
  | zero => simpa [SRD_x, SRD_pair] using hx0
  | succ n =>
    simp only [SRD_x, SRD_pair]
    exact SRD_step_snd_nonneg x_disc hd _ _ _ _ _ _ _

/-- Witness for C1: Full Truncation, `x0 = 0`, `M = I = 1`, entry `(1, 0)`. -/
theorem claim_C1_witness :
    SRD_generate_paths tagFullTruncation 0 1 1 1 1 1 1 zeroBlock 1 idCho =
        some (SRD_x tagFullTruncation 0 1 1 1 1 1 1 zeroBlock 1 idCho) ∧
      0 ≤ SRD_x tagFullTruncation 0 1 1 1 1 1 1 zeroBlock 1 idCho 1 0 :=
  claim_C1_variance_nonneg tagFullTruncation 0 1 1 1 1 1 1 zeroBlock 1 idCho
    (by decide) le_rfl 1 0 le_rfl Nat.one_pos

/-- With `sigma = 0` and `x0 = theta ≥ 0`, Full Truncation keeps both the
auxiliary and the observable value at `theta`. -/
lemma SRD_pair_const_fullTrunc (kappa theta dt sdt : ℝ) (z : ℕ → ℝ)
    (ht : 0 ≤ theta) (t : ℕ) :
    SRD_pair tagFullTruncation theta kappa theta 0 dt sdt z t =
      (theta, theta) := by
  induction t with
  | zero => rfl
  | succ n ih =>
    simp only [SRD_pair]
    rw [ih]
    simp [SRD_step, tagFullTruncation, max_eq_right ht]

/-- With `sigma = 0` and `x0 = theta ≥ 0`, Partial Truncation keeps both
components at `theta`. -/
lemma SRD_pair_const_parttrunc (kappa theta dt sdt : ℝ) (z : ℕ → ℝ)
    (ht : 0 ≤ theta) (t : ℕ) :
    SRD_pair tagPartialTruncation theta kappa theta 0 dt sdt z t =
      (theta, theta) := by
  induction t with
  | zero => rfl
  | succ n ih =>
    simp only [SRD_pair]
    rw [ih]
    simp [SRD_step, tagPartialTruncation, tagFullTruncation, max_eq_right ht]

/-- Reduction of one loop iteration at the Truncation tag. -/
lemma SRD_step_truncation_eq (kappa theta sigma dt sdt : ℝ) (p : ℝ × ℝ)
    (z : ℝ) :
    SRD_step tagTruncation kappa theta sigma dt sdt p z =
      (0, max 0 (p.2 + kappa * (theta - p.2) * dt +
        Real.sqrt p.2 * sigma * z * sdt)) := by
  simp [SRD_step, tagTruncation, tagFullTruncation, tagPartialTruncation]

/-- Reduction of one loop iteration at the Simple Reflection tag. -/
lemma SRD_step_simpleRefl_eq (kappa theta sigma dt sdt : ℝ) (p : ℝ × ℝ)
    (z : ℝ) :
    SRD_step tagSimpleReflection kappa theta sigma dt sdt p z =
      (0, |p.2 + kappa * (theta - p.2) * dt +
        Real.sqrt p.2 * sigma * z * sdt|) := by
  simp [SRD_step, tagSimpleReflection, tagFullTruncation,
    tagPartialTruncation, tagTruncation, tagReflection, tagHighamMao]

/-- With `sigma = 0` and `x0 = theta ≥ 0`, Truncation keeps the observable
value at `theta`. -/
lemma SRD_pair_const_trunc (kappa theta dt sdt : ℝ) (z : ℕ → ℝ)
    (ht : 0 ≤ theta) (t : ℕ) :
    (SRD_pair tagTruncation theta kappa theta 0 dt sdt z t).2 = theta := by
  induction t with
  | zero => rfl
  | succ n ih =>
    simp only [SRD_pair, SRD_step_truncation_eq]
    rw [ih]
    simp [max_eq_right ht]

/-- With `sigma = 0` and `x0 = theta ≥ 0`, Reflection keeps both components
at `theta`. -/
lemma SRD_pair_const_reflection (kappa theta dt sdt : ℝ) (z : ℕ → ℝ)
    (ht : 0 ≤ theta) (t : ℕ) :
    SRD_pair tagReflection theta kappa theta 0 dt sdt z t =
      (theta, theta) := by
  induction t with
  | zero => rfl
  | succ n ih =>
    simp only [SRD_pair]
    rw [ih]
    simp [SRD_step, tagReflection, tagFullTruncation, tagPartialTruncation,
      tagTruncation, abs_of_nonneg ht]

/-- With `sigma = 0` and `x0 = theta ≥ 0`, Higham-Mao keeps both components
at `theta`. -/
lemma SRD_pair_const_highamMao (kappa theta dt sdt : ℝ) (z : ℕ → ℝ)
    (ht : 0 ≤ theta) (t : ℕ) :
    SRD_pair tagHighamMao theta kappa theta 0 dt sdt z t = (theta, theta) := by
  induction t with
  | zero => rfl
  | succ n ih =>
    simp only [SRD_pair]
    rw [ih]
    simp [SRD_step, tagHighamMao, tagFullTruncation, tagPartialTruncation,
      tagTruncation, tagReflection, abs_of_nonneg ht]

/-- With `sigma = 0` and `x0 = theta ≥ 0`, Simple Reflection keeps the
observable value at `theta`. -/
lemma SRD_pair_const_simpleRefl (kappa theta dt sdt : ℝ) (z : ℕ → ℝ)
    (ht : 0 ≤ theta) (t : ℕ) :
    (SRD_pair tagSimpleReflection theta kappa theta 0 dt sdt z t).2 =
      theta := by
  induction t with
  | zero => rfl
  | succ n ih =>
    simp only [SRD_pair, SRD_step_simpleRefl_eq]
    rw [ih]
    simp [abs_of_nonneg ht]

/-- With `sigma = 0` and `x0 = theta ≥ 0`, Absorption keeps both components
at `theta`. -/
lemma SRD_pair_const_absorption (kappa theta dt sdt : ℝ) (z : ℕ → ℝ)
    (ht : 0 ≤ theta) (t : ℕ) :
    SRD_pair tagAbsorption theta kappa theta 0 dt sdt z t = (theta, theta) := by
  induction t with
  | zero => rfl
  | succ n ih =>
    simp only [SRD_pair]
    rw [ih]
    simp [SRD_step, tagAbsorption, tagFullTruncation, tagPartialTruncation,
      tagTruncation, tagReflection, tagHighamMao, tagSimpleReflection,
      max_eq_right ht]

/-- C7 (amended: requires `theta ≥ 0`): with `sigma = 0` and
`v0 = theta ≥ 0`, each of the seven schemes keeps the variance returned by
`SRD_generate_paths` constant at `v0` on every path and step. -/
theorem claim_C7_zero_vol_constant (x_disc : String) (kappa theta T : ℝ)
    (M I : ℕ) (rand : VariateBlock) (row : ℕ) (cho : ℕ → ℕ → ℝ)
    (hd : x_disc ∈ srdSchemes) (ht : 0 ≤ theta) (t i : ℕ) (htM : t ≤ M)
    (hi : i < I) :
    SRD_generate_paths x_disc theta kappa theta 0 T M I rand row cho =
        some (SRD_x x_disc theta kappa theta 0 T M I rand row cho) ∧
      SRD_x x_disc theta kappa theta 0 T M I rand row cho t i = theta := by
  refine ⟨by simp [SRD_generate_paths, hd], ?_⟩
  simp only [srdSchemes, List.mem_cons, List.not_mem_nil, or_false] at hd
  simp only [SRD_x]
  rcases hd with h | h | h | h | h | h | h <;> subst h
  · rw [SRD_pair_const_fullTrunc _ _ _ _ _ ht]
  · rw [SRD_pair_const_parttrunc _ _ _ _ _ ht]
  · rw [SRD_pair_const_trunc _ _ _ _ _ ht]
  · rw [SRD_pair_const_reflection _ _ _ _ _ ht]
  · rw [SRD_pair_const_highamMao _ _ _ _ _ ht]
  · rw [SRD_pair_const_simpleRefl _ _ _ _ _ ht]
  · rw [SRD_pair_const_absorption _ _ _ _ _ ht]

/-- Witness for C7: Reflection scheme, `theta = 1`, `M = I = 1`,
entry `(1, 0)`. -/
theorem claim_C7_witness :
    SRD_generate_paths tagReflection 1 1 1 0 1 1 1 zeroBlock 1 idCho =
        some (SRD_x tagReflection 1 1 1 0 1 1 1 zeroBlock 1 idCho) ∧
      SRD_x tagReflection 1 1 1 0 1 1 1 zeroBlock 1 idCho 1 0 = 1 :=
  claim_C7_zero_vol_constant tagReflection 1 1 1 1 1 zeroBlock 1 idCho
    (by decide) zero_le_one 1 0 le_rfl Nat.one_pos

/-- C7 counterexample: with `sigma = 0` but `v0 = theta = -1` (negative),
the Full Truncation scheme moves the variance from `-1` to `0` at the first
step (`kappa = 1`, `T = 1`, `M = I = 1`), so the process does not stay at
`v0`: the claim fails without the nonnegativity restriction on `theta`. -/
theorem claim_C7_counterexample :
    SRD_x tagFullTruncation (-1) 1 (-1) 0 1 1 1 zeroBlock 1 idCho 1 0 ≠ -1 := by
  have h : SRD_x tagFullTruncation (-1) 1 (-1) 0 1 1 1 zeroBlock 1 idCho 1 0 =
      0 := by
    simp only [SRD_x, SRD_pair, SRD_step, tagFullTruncation, dot2, zeroBlock,
      idCho]
    norm_num
  rw [h]
  norm_num

/-- C3 counterexample: for the unrecognized tag "Midpoint" with `M = 1`, the
loop computes the step-1 correlated shock before terminating: the run's
trace contains a shock computation ahead of the exit, so the failure is
raised mid-loop after simulation work has already begun, not before the loop
as claimed. -/
theorem claim_C3_counterexample :
    SRD_trace tagMidpoint 1 = [SRDEvent.shock 1, SRDEvent.bail] ∧
      SRDEvent.shock 1 ∈ SRD_trace tagMidpoint 1 := by
  refine ⟨?_, ?_⟩ <;> decide

/-- C3 (amended): an unrecognized scheme tag makes `SRD_generate_paths` fail
without returning a path matrix, but the failure happens at the first
iteration of the per-step loop, after the step-1 correlated shock has been
computed — a mid-loop process exit rather than a pre-loop configuration
error. -/
theorem claim_C3_unrecognized_fails (x_disc : String)
    (x0 kappa theta sigma T : ℝ) (M I : ℕ) (rand : VariateBlock) (row : ℕ)
    (cho : ℕ → ℕ → ℝ) (hd : x_disc ∉ srdSchemes) (hM : 1 ≤ M) :
    SRD_generate_paths x_disc x0 kappa theta sigma T M I rand row cho =
        none ∧
      SRD_trace x_disc M = SRDEvent.shock 1 :: [SRDEvent.bail] := by
  refine ⟨by simp [SRD_generate_paths, hd], ?_⟩
  obtain ⟨n, rfl⟩ : ∃ n, M = n + 1 := ⟨M - 1, by omega⟩
  simp [SRD_trace, SRD_traceFrom, hd]

/-- Witness for C3 at the tag "Midpoint" with `M = I = 1`. -/
theorem claim_C3_witness :
    SRD_generate_paths tagMidpoint 0 1 1 1 1 1 1 zeroBlock 1 idCho = none ∧
      SRD_trace tagMidpoint 1 = SRDEvent.shock 1 :: [SRDEvent.bail] :=
  claim_C3_unrecognized_fails tagMidpoint 0 1 1 1 1 1 1 zeroBlock 1 idCho
    (by decide) le_rfl

/-- C6: under the Log scheme the asset recurrence is
`S[t] = S[t-1] * exp((r - v[t]/2) dt + sqrt(v[t]) shock sdt - bias)`, where
the shock is row `row` of the Cholesky factor applied to the variate block
at step `t`; the bias is recomputed independently at every step as the
cross-path mean of `sqrt(v[t]) shock sdt` when moment matching is enabled,
and is 0 at every step otherwise. -/
theorem claim_C6_log_recurrence (S0 r dt : ℝ) (momatch : Bool) (M I : ℕ)
    (v : ℕ → ℕ → ℝ) (rand : VariateBlock) (row : ℕ) (cho : ℕ → ℕ → ℝ)
    (t i : ℕ) :
    H93_generate_paths tagLog S0 r v row cho rand momatch M I dt =
        some (H93_S tagLog S0 r dt (Real.sqrt dt) momatch I v
          (dot2 cho row rand)) ∧
      H93_S tagLog S0 r dt (Real.sqrt dt) momatch I v (dot2 cho row rand)
          (t + 1) i =
        H93_S tagLog S0 r dt (Real.sqrt dt) momatch I v (dot2 cho row rand)
            t i *
          Real.exp ((r - v (t + 1) i / 2) * dt +
            Real.sqrt (v (t + 1) i) * dot2 cho row rand (t + 1) i *
              Real.sqrt dt -
            (if momatch then
              vecMean I (fun j => Real.sqrt (v (t + 1) j) *
                dot2 cho row rand (t + 1) j * Real.sqrt dt)
             else 0)) := by
  refine ⟨by simp [H93_generate_paths], ?_⟩
  have hstep : H93_S tagLog S0 r dt (Real.sqrt dt) momatch I v
      (dot2 cho row rand) (t + 1) i =
      H93_S tagLog S0 r dt (Real.sqrt dt) momatch I v (dot2 cho row rand)
          t i *
        Real.exp ((r - 0.5 * v (t + 1) i) * dt +
          Real.sqrt (v (t + 1) i) * dot2 cho row rand (t + 1) i *
            Real.sqrt dt -
          H93_bias momatch I v (dot2 cho row rand) (Real.sqrt dt) (t + 1)) := by
    simp only [H93_S]
    rw [if_pos trivial]
  rw [hstep, H93_bias]
  congr 2
  ring

/-- C8 counterexample: at `rho = 1` — allowed by the claim, which promises
success for every `|rho| ≤ 1` — the factorization fails: the second pivot
`1 - rho^2` vanishes, and `np.linalg.cholesky` raises `LinAlgError` on the
singular (positive-semi-definite but not definite) matrix `[[1,1],[1,1]]`. -/
theorem claim_C8_counterexample : cho_matrix 1 = none := by
  norm_num [cho_matrix]

/-- C8 (amended): the factorization succeeds exactly when `|rho| < 1` — not
`|rho| ≤ 1` — and then returns the lower-triangular factor whose product
with its transpose is the correlation matrix; it fails exactly when
`|rho| ≥ 1`. -/
theorem claim_C8_cholesky (rho : ℝ) :
    (cho_matrix rho = some (choFactor rho) ↔ |rho| < 1) ∧
      (cho_matrix rho = none ↔ 1 ≤ |rho|) ∧
      (|rho| < 1 →
        choFactor rho 0 1 = 0 ∧
          matMulT (choFactor rho) = covariance_matrix rho) := by
  have hiff : 0 < 1 - rho ^ 2 ↔ |rho| < 1 := by
    rw [sub_pos]
    exact sq_lt_one_iff_abs_lt_one rho
  refine ⟨?_, ?_, fun hlt => ⟨rfl, ?_⟩⟩
  · constructor
    · intro h
      by_contra hge
      rw [cho_matrix, if_neg (fun hc => hge (hiff.mp hc))] at h
      exact Option.noConfusion h
    · intro h
      rw [cho_matrix, if_pos (hiff.mpr h)]
  · constructor
    · intro h
      by_contra hlt
      rw [cho_matrix, if_pos (hiff.mpr (lt_of_not_le hlt))] at h
      exact Option.noConfusion h
    · intro h
      rw [cho_matrix, if_neg (fun hc => absurd (hiff.mp hc) (not_lt.mpr h))]
  · have hsq : 0 ≤ 1 - rho ^ 2 := by
      have h2 := (sq_lt_one_iff_abs_lt_one rho).mpr hlt
      linarith
    funext r c
    fin_cases r <;> fin_cases c <;>
      simp [matMulT, choFactor, covariance_matrix] <;>
      nlinarith [Real.mul_self_sqrt hsq]

/-- Witness for C8 at `rho = 0`: success, lower-triangularity, and the
product identity. -/
theorem claim_C8_witness :
    (cho_matrix 0 = some (choFactor 0) ↔ |(0 : ℝ)| < 1) ∧
      (choFactor 0 0 1 = 0 ∧ matMulT (choFactor 0) = covariance_matrix 0) :=
  ⟨(claim_C8_cholesky 0).1, (claim_C8_cholesky 0).2.2 (by norm_num)⟩

/-- C2: the estimator computes exactly the elementwise discounted payoff
`pv i = exp(-r T) * max(S[M][i] - K, 0)`, the mean value as `mean(pv)`
(equivalently `sum(pv)/I`), the standard error as `std(pv)/sqrt(I)`, and the
relative error as `(meanValue - benchmark)/benchmark`. -/
theorem claim_C2_estimator (r T K C0 : ℝ) (M I : ℕ) (S : ℕ → ℕ → ℝ)
    (hI : 1 ≤ I) (hC0 : C0 ≠ 0) :
    (∀ i, pv r T K M S i = Real.exp (-(r * T)) * max (S M i - K) 0) ∧
      V0_MCS r T K M I S = vecMean I (pv r T K M S) ∧
      V0_MCS r T K M I S = vecSum I (pv r T K M S) / I ∧
      SE r T K M I S = vecStd I (pv r T K M S) / Real.sqrt I ∧
      rel_error r T K M I S C0 = (V0_MCS r T K M I S - C0) / C0 := by
  refine ⟨fun i => ?_, rfl, rfl, rfl, rfl⟩
  simp [pv, B0T, inner_value, neg_mul]

/-- Witness for C2 with the zero path matrix, `I = 1`, benchmark `C0 = 1`. -/
theorem claim_C2_witness :
    (pv 0 0 0 0 zeroMatrix 0 =
        Real.exp (-((0 : ℝ) * 0)) * max (zeroMatrix 0 0 - 0) 0) ∧
      V0_MCS 0 0 0 0 1 zeroMatrix = vecMean 1 (pv 0 0 0 0 zeroMatrix) :=
  ⟨(claim_C2_estimator 0 0 0 1 0 1 zeroMatrix le_rfl one_ne_zero).1 0,
   (claim_C2_estimator 0 0 0 1 0 1 zeroMatrix le_rfl one_ne_zero).2.1⟩
